import Mathlib

/-!
Shallow embedding of the habit-tracker core logic (src/app.py) and proofs
about it.

Modelling conventions:
* Python floats that hold habit quantities (pushups, study hours, water) are
  modelled as rationals (ℚ); the arithmetic the code performs on them
  (comparison, min, +, *) is exact on the values that occur.
* Calendar dates are modelled two ways, matching the two ways the code
  handles them:
  - in `get_current_week_dates` and `get_streak_data` the code does day
    arithmetic, so there a date is its proleptic-Gregorian ordinal
    (Python `date.toordinal`), an integer; ordinal 1 (0001-01-01) is a
    Monday, so the Monday-based Python `date.weekday()` is `(d - 1) mod 7`;
  - in `save_grid_changes` and `get_display_data` the code only compares
    ISO `YYYY-MM-DD` strings for equality / lexicographic order, so there a
    date is a `String` compared with `String` equality and `<`.
* SQLite rows may hold NULL in any non-key column, modelled with `Option`.
  `log_date` is the PRIMARY KEY of `daily_log`, so a stored table never has
  two rows with the same date; lookups are `List.find?` on the date.
-/

namespace HabitTracker

/-- Scoring configuration, from `SCORE_CONFIG` in src/app.py. -/
def coded_today_points : ℚ := 30

/-- Points for the no-junk-food flag, from `SCORE_CONFIG`. -/
def no_junk_food_points : ℚ := 20

/-- Points for the workout flag, from `SCORE_CONFIG`. -/
def workout_done_points : ℚ := 10

/-- Cap on the pushups contribution, from `SCORE_CONFIG` (`pushups_max`). -/
def pushups_max : ℚ := 30

/-- Cap on the study-hours contribution, from `SCORE_CONFIG` (`study_hours_max`). -/
def study_hours_max : ℚ := 10

/-- The `validate_numeric_input` function of src/app.py (lines 174-184): clamp
`value` below at `min_val`, and above at `max_val` when `max_val` is truthy
(non-zero).  The string-conversion / exception branch never fires for the
numeric inputs modelled here. -/
def validate_numeric_input (value : ℚ) (min_val : ℚ) (max_val : ℚ) : ℚ :=
  if value < min_val then min_val
  else if max_val ≠ 0 ∧ max_val < value then max_val
  else value

/-- The scoring block inlined in `save_grid_changes` (src/app.py lines
207-214): flag bonuses, pushups capped at 30, study hours times 5 capped at
10, the total capped at 100.  Inputs are the already-validated quantities. -/
def scoreOf (coded_today no_junk_food workout_done : Bool)
    (pushups study_hours : ℚ) : ℚ :=
  let score : ℚ :=
    (if coded_today then coded_today_points else 0)
    + (if no_junk_food then no_junk_food_points else 0)
    + (if workout_done then workout_done_points else 0)
    + min (pushups * 1) pushups_max
    + min (study_hours * 5) study_hours_max
  min score 100

/-- One edited grid row as it reaches `save_grid_changes`: the editable
fields of the data editor. -/
structure EditRow where
  log_date : String
  coded_today : Bool
  no_junk_food : Bool
  workout_done : Bool
  pushups : ℚ
  study_hours : ℚ
  water_liters : ℚ
  notes : String
deriving DecidableEq, Repr

/-- One persisted `daily_log` row as `save_grid_changes` writes it:
`int(pushups)` truncates (= floor, the value is non-negative after
validation), booleans are stored as 0/1 integers, and `victory_score` is
stored as the computed value (which is not an integer when `study_hours*5`
is fractional). -/
structure SavedRow where
  log_date : String
  pushups : ℤ
  study_hours : ℚ
  water_liters : ℚ
  coded_today : ℤ
  no_junk_food : ℤ
  workout_done : ℤ
  notes : String
  victory_score : ℚ
deriving DecidableEq, Repr

/-- The per-row body of the save loop (src/app.py lines 202-221): validate
the three numeric fields, compute the score, and build the row handed to
`INSERT OR REPLACE`. -/
def processRow (row : EditRow) : SavedRow :=
  let pushups := validate_numeric_input row.pushups 0 200
  let study_hours := validate_numeric_input row.study_hours 0 24
  let water_liters := validate_numeric_input row.water_liters 0 20
  { log_date := row.log_date
    pushups := ⌊pushups⌋
    study_hours := study_hours
    water_liters := water_liters
    coded_today := if row.coded_today then 1 else 0
    no_junk_food := if row.no_junk_food then 1 else 0
    workout_done := if row.workout_done then 1 else 0
    notes := row.notes
    victory_score := scoreOf row.coded_today row.no_junk_food row.workout_done
      pushups study_hours }

/-- Python `date.weekday()` on a proleptic-Gregorian ordinal: ordinal 1
(0001-01-01) is a Monday, Monday = 0 .. Sunday = 6. -/
def pyWeekday (d : ℤ) : ℤ := (d - 1) % 7

/-- The `get_current_week_dates` function of src/app.py (lines 109-119), with
the reference date made an explicit argument (the code fixes it to
`date.today()`).  Note the code SUBTRACTS `offset_weeks` weeks from today. -/
def get_current_week_dates (today : ℤ) (offset_weeks : ℤ) : List ℤ × ℤ :=
  let shifted := today - 7 * offset_weeks
  let days_to_subtract := (pyWeekday shifted + 1) % 7
  let start_sunday := shifted - days_to_subtract
  ((List.range 7).map (fun i => start_sunday + (i : ℤ)), start_sunday)

/-- The streak-scanning loop of `get_streak_data` (src/app.py lines 256-261):
a forward pass over the date-ordered history carrying
`(temp_streak, longest_streak)`; a true flag increments `temp_streak` and
refreshes `longest_streak`, a false flag resets `temp_streak` to 0.  The
loop never looks at the dates. -/
def streakScan : List (ℤ × Bool) → ℕ × ℕ → ℕ × ℕ
  | [], acc => acc
  | (_, b) :: rest, (temp_streak, longest_streak) =>
    if b then streakScan rest (temp_streak + 1, max longest_streak (temp_streak + 1))
    else streakScan rest (0, longest_streak)

/-- The `get_streak_data` function of src/app.py (lines 238-271) for one
habit column: the history is the `daily_log` table ordered by `log_date`
(ascending), each entry a (date ordinal, flag) pair; `today` is
`date.today()`.  Empty history returns (0, 0); otherwise the scan runs and
the final `temp_streak` is credited as the current streak exactly when the
last logged date is within 1 day of today. -/
def get_streak_data (history : List (ℤ × Bool)) (today : ℤ) : ℕ × ℕ :=
  match history with
  | [] => (0, 0)
  | x :: xs =>
    let p := streakScan (x :: xs) (0, 0)
    let last_date := ((x :: xs).getLast (List.cons_ne_nil x xs)).1
    ((if today - last_date ≤ 1 then p.1 else 0), p.2)

/-- One stored `daily_log` row as `get_display_data` reads it back: every
non-key column may be NULL.  `log_date` is the PRIMARY KEY. -/
structure StoredRow where
  log_date : String
  pushups : Option ℤ
  study_hours : Option ℚ
  water_liters : Option ℚ
  coded_today : Option ℤ
  no_junk_food : Option ℤ
  workout_done : Option ℤ
  notes : Option String
  victory_score : Option ℤ
deriving DecidableEq, Repr

/-- A notes cell after the `get_display_data` pipeline: either a string that
came from the database, or the NUMBER 0 that `df_final.fillna(0)` writes
into a missing notes cell. -/
inductive NoteCell
  | ofStr (s : String)
  | ofNum (n : ℕ)
deriving DecidableEq, Repr

/-- One fully-populated display row produced by `get_display_data` (the
day-label column, pure `strftime` formatting, is omitted). -/
structure DisplayRow where
  log_date : String
  coded_today : Bool
  no_junk_food : Bool
  workout_done : Bool
  pushups : ℤ
  study_hours : ℚ
  water_liters : ℚ
  victory_score : ℤ
  notes : NoteCell
deriving DecidableEq, Repr

/-- The row `get_display_data` synthesizes for a target date when the
database is EMPTY: `df_final = df_week`, so every habit column is added
whole from the `required_cols` defaults (src/app.py lines 146-152), notes
included as the empty string. -/
def defaultRow (d : String) : DisplayRow :=
  { log_date := d, coded_today := false, no_junk_food := false,
    workout_done := false, pushups := 0, study_hours := 0, water_liters := 0,
    victory_score := 0, notes := .ofStr "" }

/-- The row `get_display_data` produces for a target date that has NO match
in a non-empty database: the left merge leaves every habit cell NaN,
`fillna(0)` turns them all into 0 — the notes cell becomes the number 0,
not the empty string — and `astype(bool)` turns the 0 flags into false. -/
def missingRow (d : String) : DisplayRow :=
  { log_date := d, coded_today := false, no_junk_food := false,
    workout_done := false, pushups := 0, study_hours := 0, water_liters := 0,
    victory_score := 0, notes := .ofNum 0 }

/-- The row `get_display_data` produces for a target date whose stored row
`r` was found by the merge: NULL cells are NaN, so `fillna(0)` defaults
each to 0 (numeric 0 for a NULL notes), and `astype(bool)` maps a flag to
false exactly when its (defaulted) integer is 0. -/
def fillRow (r : StoredRow) : DisplayRow :=
  { log_date := r.log_date
    coded_today := r.coded_today.getD 0 ≠ 0
    no_junk_food := r.no_junk_food.getD 0 ≠ 0
    workout_done := r.workout_done.getD 0 ≠ 0
    pushups := r.pushups.getD 0
    study_hours := r.study_hours.getD 0
    water_liters := r.water_liters.getD 0
    victory_score := r.victory_score.getD 0
    notes := match r.notes with | some s => .ofStr s | none => .ofNum 0 }

/-- The data pipeline of `get_display_data` (src/app.py lines 137-159), with
the target date strings of the week and the stored table as explicit arguments:
empty table ⇒ the week frame itself, defaults added column-wise; non-empty
table ⇒ left merge on `log_date` (unique, it is the PRIMARY KEY), then
`fillna(0)` and the boolean cast, row by row.  `normalizeOne` is the
per-target-date step of the non-empty-table branch. -/
def normalizeOne (db : List StoredRow) (d : String) : DisplayRow :=
  match db.find? (fun r => r.log_date = d) with
  | some r => fillRow r
  | none => missingRow d

/-- The whole `get_display_data` pipeline: empty table keeps the week frame
with column-wise defaults; non-empty table normalizes each target date
through the merge / fill / cast steps. -/
def get_display_data (str_dates : List String) (db : List StoredRow) :
    List DisplayRow :=
  match db with
  | [] => str_dates.map defaultRow
  | _ :: _ => str_dates.map (normalizeOne db)

/-- Python string `>` (used on the ISO date strings in the future-date
check): strict lexicographic comparison of the character sequences by code
point.  This is exactly the relation of Lean `String.lt` (see
`strGt_iff_lt`), written on `String.data` so that it evaluates by
`decide`. -/
def strGt (a b : String) : Bool := decide (b.data < a.data)

/-- The durable `daily_log` table for the save path, keyed by its PRIMARY
KEY `log_date`: at most one row per date, so the table is a map from date
string to stored row. -/
def DbState := String → Option SavedRow

/-- SQLite `INSERT OR REPLACE` on `daily_log` (PRIMARY KEY `log_date`): the
row stored under the incoming key is replaced, every other key is
untouched. -/
def upsert (db : DbState) (r : SavedRow) : DbState :=
  fun d => if d = r.log_date then some r else db d

/-- The `save_grid_changes` function of src/app.py (lines 186-236), with the
stored table and `date.today().isoformat()` as explicit arguments.  Each
batch row dated strictly after today (ISO-string comparison, `>` on the
date strings) is skipped and sets the `ignored_future` flag (surfaced as a
toast); every other row is validated, rescored and upserted, bumping
`saved_count`.  Returns the new table, the `ignored_future` flag and
`saved_count`. -/
def save_grid_changes (db : DbState) (batch : List EditRow)
    (today_str : String) : DbState × Bool × ℕ :=
  batch.foldl
    (fun acc row =>
      if strGt row.log_date today_str then (acc.1, true, acc.2.2)
      else (upsert acc.1 (processRow row), acc.2.1, acc.2.2 + 1))
    (db, false, 0)

/-- Spec-side description (for comparison with the code): the length of the
maximal all-true suffix of the history — "the trailing run of true
entries". -/
def trailingTrueRun (history : List (ℤ × Bool)) : ℕ :=
  (history.reverse.takeWhile (fun p => p.2)).length

/-- The table component of the save loop on its own (the `ignored_future`
flag and `saved_count` stripped): skipped future rows leave the table
alone, every other row is upserted after validation and scoring. -/
def saveState (db : DbState) (batch : List EditRow) (today_str : String) :
    DbState :=
  batch.foldl
    (fun s row =>
      if strGt row.log_date today_str then s else upsert s (processRow row))
    db

/-- A sample stored row dated 2024-01-02, every column populated. -/
def sampleStored : StoredRow :=
  { log_date := "2024-01-02", pushups := some 5, study_hours := some 1,
    water_liters := some 2, coded_today := some 1, no_junk_food := some 0,
    workout_done := some 1, notes := some "hi", victory_score := some 50 }

/-- A stored row carrying a future date (2099-01-01), as an older or
imported table may contain. -/
def futureRowOld : SavedRow :=
  { log_date := "2099-01-01", pushups := 5, study_hours := 1,
    water_liters := 2, coded_today := 1, no_junk_food := 0, workout_done := 0,
    notes := "old", victory_score := 40 }

/-- An edited grid row for the same future date with different values. -/
def futureEdit : EditRow :=
  { log_date := "2099-01-01", coded_today := true, no_junk_food := true,
    workout_done := true, pushups := 10, study_hours := 0, water_liters := 0,
    notes := "new" }

/-- An edited grid row dated 2024-06-01 (in the past for the sample save
dates used below). -/
def pastEdit : EditRow :=
  { log_date := "2024-06-01", coded_today := true, no_junk_food := false,
    workout_done := true, pushups := 40, study_hours := 3, water_liters := 2,
    notes := "done" }

/-- A table holding exactly the future-dated stored row. -/
def futureDb : DbState :=
  fun d => if d = "2099-01-01" then some futureRowOld else none

/-- The empty table. -/
def emptyDb : DbState := fun _ => none

/-- The all-flags, 30-pushups, 2-study-hours grid row from the boundary
example of the spec. -/
def perfectRow : EditRow :=
  { log_date := "2024-06-01", coded_today := true, no_junk_food := true,
    workout_done := true, pushups := 30, study_hours := 2, water_liters := 0,
    notes := "" }

/-- The everything-false, all-zero grid row from the boundary example of
the spec. -/
def zeroRow : EditRow :=
  { log_date := "2024-06-01", coded_today := false, no_junk_food := false,
    workout_done := false, pushups := 0, study_hours := 0, water_liters := 0,
    notes := "" }

/-! Helper lemmas. -/

/-- The boolean `strGt a b` holds exactly when `b < a` in the `String`
order: the executable comparison used in the save model is the
lexicographic string order. -/
theorem strGt_iff_lt (a b : String) : strGt a b = true ↔ b < a := by
  simp [strGt, String.lt_iff]

/-- The negative direction of `strGt_iff_lt`. -/
theorem strGt_eq_false_iff (a b : String) : strGt a b = false ↔ ¬ b < a := by
  simp [strGt, String.lt_iff]

/-- Validation is the identity on values already inside the clamp range. -/
theorem validate_eq_self {v m : ℚ} (h0 : 0 ≤ v) (h1 : v ≤ m) :
    validate_numeric_input v 0 m = v := by
  unfold validate_numeric_input
  rw [if_neg (not_lt.2 h0), if_neg]
  rintro ⟨-, hm⟩
  exact absurd h1 (not_le.2 hm)

/-- The score is non-negative on clamped (non-negative) numeric inputs. -/
theorem scoreOf_nonneg (c n w : Bool) (p s : ℚ) (hp : 0 ≤ p) (hs : 0 ≤ s) :
    0 ≤ scoreOf c n w p s := by
  have h1 : (0:ℚ) ≤ if c then coded_today_points else 0 := by
    cases c <;> norm_num [coded_today_points]
  have h2 : (0:ℚ) ≤ if n then no_junk_food_points else 0 := by
    cases n <;> norm_num [no_junk_food_points]
  have h3 : (0:ℚ) ≤ if w then workout_done_points else 0 := by
    cases w <;> norm_num [workout_done_points]
  have h4 : (0:ℚ) ≤ min (p * 1) pushups_max :=
    le_min (by linarith) (by norm_num [pushups_max])
  have h5 : (0:ℚ) ≤ min (s * 5) study_hours_max :=
    le_min (by linarith) (by norm_num [study_hours_max])
  simp only [scoreOf]
  exact le_min (by linarith) (by norm_num)

/-- The final clamp keeps the score at or below 100. -/
theorem scoreOf_le_100 (c n w : Bool) (p s : ℚ) : scoreOf c n w p s ≤ 100 :=
  min_le_right _ _

/-- The score is monotone in the pushups input. -/
theorem scoreOf_mono_p (c n w : Bool) {p p' : ℚ} (s : ℚ) (h : p ≤ p') :
    scoreOf c n w p s ≤ scoreOf c n w p' s := by
  simp only [scoreOf]
  gcongr

/-- The score is monotone in the study-hours input. -/
theorem scoreOf_mono_s (c n w : Bool) {s s' : ℚ} (p : ℚ) (h : s ≤ s') :
    scoreOf c n w p s ≤ scoreOf c n w p s' := by
  simp only [scoreOf]
  gcongr

/-- The score is monotone in the coded-today flag. -/
theorem scoreOf_mono_coded (n w : Bool) (p s : ℚ) :
    scoreOf false n w p s ≤ scoreOf true n w p s := by
  simp only [scoreOf]
  gcongr
  norm_num [coded_today_points]

/-- The score is monotone in the no-junk-food flag. -/
theorem scoreOf_mono_junk (c w : Bool) (p s : ℚ) :
    scoreOf c false w p s ≤ scoreOf c true w p s := by
  simp only [scoreOf]
  gcongr
  norm_num [no_junk_food_points]

/-- The score is monotone in the workout flag. -/
theorem scoreOf_mono_workout (c n : Bool) (p s : ℚ) :
    scoreOf c n false p s ≤ scoreOf c n true p s := by
  simp only [scoreOf]
  gcongr
  norm_num [workout_done_points]

/-- The streak scan is a left fold: it distributes over append. -/
theorem streakScan_append (a b : List (ℤ × Bool)) (acc : ℕ × ℕ) :
    streakScan (a ++ b) acc = streakScan b (streakScan a acc) := by
  induction a generalizing acc with
  | nil => rfl
  | cons x xs ih =>
    obtain ⟨d, bx⟩ := x
    obtain ⟨t, lg⟩ := acc
    simp only [List.cons_append, streakScan]
    split <;> exact ih _

/-- Started from (0, 0), the running count of the scan ends at the length
of the trailing all-true run of the history. -/
theorem streakScan_fst (l : List (ℤ × Bool)) :
    (streakScan l (0, 0)).1 = trailingTrueRun l := by
  induction l using List.reverseRecOn with
  | nil => rfl
  | append_singleton xs x ih =>
    obtain ⟨d, b⟩ := x
    rw [streakScan_append]
    rcases hp : streakScan xs (0, 0) with ⟨t, lg⟩
    rw [hp] at ih
    cases b with
    | false =>
      simp [streakScan, trailingTrueRun, List.reverse_append]
    | true =>
      simp only [streakScan, trailingTrueRun, List.reverse_append,
        List.takeWhile_cons, if_pos]
      simp only [trailingTrueRun] at ih
      simp [← ih]

/-- The scan keeps the running count at or below the longest count, and the
longest count never decreases. -/
theorem streakScan_le (l : List (ℤ × Bool)) (t lg : ℕ) (h : t ≤ lg) :
    (streakScan l (t, lg)).1 ≤ (streakScan l (t, lg)).2
      ∧ lg ≤ (streakScan l (t, lg)).2 := by
  induction l generalizing t lg with
  | nil => exact ⟨h, le_rfl⟩
  | cons x xs ih =>
    obtain ⟨d, b⟩ := x
    cases b with
    | false =>
      simp only [streakScan, Bool.false_eq_true, if_false]
      exact ih 0 lg (Nat.zero_le _)
    | true =>
      simp only [streakScan, if_true]
      have hmax : t + 1 ≤ max lg (t + 1) := le_max_right _ _
      exact ⟨(ih _ _ hmax).1, le_trans (le_max_left _ _) (ih _ _ hmax).2⟩

/-- The credited current streak is either 0 (stale history) or exactly the
trailing all-true run of the history. -/
theorem current_eq_zero_or_trailing (history : List (ℤ × Bool)) (today : ℤ) :
    (get_streak_data history today).1 = 0
      ∨ (get_streak_data history today).1 = trailingTrueRun history := by
  cases history with
  | nil => exact Or.inl rfl
  | cons x xs =>
    simp only [get_streak_data]
    split
    · exact Or.inr (streakScan_fst (x :: xs))
    · exact Or.inl rfl

/-- `processRow` keeps the date of the edited row. -/
theorem processRow_log_date (r : EditRow) :
    (processRow r).log_date = r.log_date :=
  rfl

/-- The table component of the save loop equals `saveState` (the flag and
counter do not influence it). -/
theorem save_fst (db : DbState) (batch : List EditRow) (today : String) :
    (save_grid_changes db batch today).1 = saveState db batch today := by
  suffices h : ∀ (batch : List EditRow) (db : DbState) (flag : Bool) (cnt : ℕ),
      (batch.foldl
        (fun acc row =>
          if strGt row.log_date today then (acc.1, true, acc.2.2)
          else (upsert acc.1 (processRow row), acc.2.1, acc.2.2 + 1))
        (db, flag, cnt)).1 = saveState db batch today from
    h batch db false 0
  intro batch
  induction batch with
  | nil => intro db flag cnt; rfl
  | cons r rest ih =>
    intro db flag cnt
    simp only [List.foldl_cons, saveState]
    by_cases hgt : strGt r.log_date today
    · rw [if_pos hgt, if_pos hgt]
      exact ih db true cnt
    · rw [if_neg hgt, if_neg hgt]
      exact ih _ flag (cnt + 1)

/-- The `ignored_future` flag is set exactly when some batch row is dated
strictly after today. -/
theorem save_flag (db : DbState) (batch : List EditRow) (today : String) :
    (save_grid_changes db batch today).2.1
      = batch.any (fun row => strGt row.log_date today) := by
  suffices h : ∀ (batch : List EditRow) (db : DbState) (flag : Bool) (cnt : ℕ),
      (batch.foldl
        (fun acc row =>
          if strGt row.log_date today then (acc.1, true, acc.2.2)
          else (upsert acc.1 (processRow row), acc.2.1, acc.2.2 + 1))
        (db, flag, cnt)).2.1
      = (flag || batch.any (fun row => strGt row.log_date today)) by
    simpa using h batch db false 0
  intro batch
  induction batch with
  | nil => intro db flag cnt; simp
  | cons r rest ih =>
    intro db flag cnt
    simp only [List.foldl_cons, List.any_cons]
    by_cases hgt : strGt r.log_date today
    · rw [if_pos hgt, hgt]
      simp [ih _ true cnt]
    · rw [if_neg hgt]
      simp only [Bool.not_eq_true] at hgt
      rw [hgt]
      simp [ih _ flag (cnt + 1)]

/-- A date carried by no batch row is untouched by the save loop. -/
theorem saveState_not_mem (db : DbState) (batch : List EditRow)
    (today d : String) (hd : ∀ r ∈ batch, r.log_date ≠ d) :
    saveState db batch today d = db d := by
  induction batch generalizing db with
  | nil => rfl
  | cons r rest ih =>
    have hrd : r.log_date ≠ d := hd r (List.mem_cons_self r rest)
    have hrest : ∀ x ∈ rest, x.log_date ≠ d := fun x hx =>
      hd x (List.mem_cons_of_mem r hx)
    have hstep : saveState db (r :: rest) today
        = saveState (if strGt r.log_date today then db
            else upsert db (processRow r)) rest today := rfl
    rw [hstep]
    by_cases hgt : strGt r.log_date today
    · rw [if_pos hgt]
      exact ih db hrest
    · rw [if_neg hgt, ih _ hrest]
      simp only [upsert, processRow_log_date]
      rw [if_neg (fun hh => hrd hh.symm)]

/-- A date strictly after today is untouched by the save loop: every row
that writes is dated today or earlier. -/
theorem saveState_future (db : DbState) (batch : List EditRow)
    (today d : String) (hd : strGt d today = true) :
    saveState db batch today d = db d := by
  induction batch generalizing db with
  | nil => rfl
  | cons r rest ih =>
    have hstep : saveState db (r :: rest) today
        = saveState (if strGt r.log_date today then db
            else upsert db (processRow r)) rest today := rfl
    rw [hstep]
    by_cases hgt : strGt r.log_date today
    · rw [if_pos hgt]
      exact ih db
    · rw [if_neg hgt, ih _]
      simp only [upsert, processRow_log_date]
      rw [if_neg]
      intro hh
      rw [hh] at hd
      exact hgt hd

/-- A non-future batch row ends up stored, validated and rescored, under
its date (dates in the batch are distinct, as in the week grid). -/
theorem saveState_mem (db : DbState) (batch : List EditRow) (today : String)
    (r : EditRow) (hr : r ∈ batch)
    (hnd : (batch.map EditRow.log_date).Nodup)
    (hfut : strGt r.log_date today = false) :
    saveState db batch today r.log_date = some (processRow r) := by
  induction batch generalizing db with
  | nil => exact absurd hr (List.not_mem_nil r)
  | cons x rest ih =>
    have hstep : saveState db (x :: rest) today
        = saveState (if strGt x.log_date today then db
            else upsert db (processRow x)) rest today := rfl
    rw [hstep]
    obtain ⟨hhead, htail⟩ :
        (∀ y ∈ rest, ¬ y.log_date = x.log_date)
          ∧ (rest.map EditRow.log_date).Nodup := by
      simpa using hnd
    rcases List.mem_cons.1 hr with rfl | hr'
    · rw [if_neg (by rw [hfut]; exact Bool.false_ne_true)]
      rw [saveState_not_mem _ _ _ _ (fun y hy => hhead y hy)]
      simp [upsert, processRow_log_date]
    · split
      · exact ih _ hr' htail
      · exact ih _ hr' htail

/-- Auxiliary for C6: mapping the 7-element range over an offset yields the
seven consecutive dates. -/
theorem map_range_seven (A : ℤ) :
    (List.range 7).map (fun i => A + (i : ℤ))
      = [A, A + 1, A + 2, A + 3, A + 4, A + 5, A + 6] := by
  norm_num [List.range_succ]

/-! Claim theorems. -/

/-- C1 counterexample: on the history [(today-3, true), (today-1, true),
(today, true)] with today = 10 (dates in ascending order, as the code reads
them), the current streak computed by `get_streak_data` is 3, not the 2 the
claim asserts — the scan never inspects the 2-day gap. -/
theorem c1_counterexample :
    (get_streak_data [(7, true), (9, true), (10, true)] 10).1 = 3
      ∧ (get_streak_data [(7, true), (9, true), (10, true)] 10).1 ≠ 2 := by
  decide

/-- C1 amended: for every history whose most recent entry is dated today
with flag true, the current streak is the length of the trailing run of
true entries regardless of any date gaps inside that run; in particular the
history of the counterexample yields 3. -/
theorem c1_amended (history : List (ℤ × Bool)) (today : ℤ)
    (h : history.getLast? = some (today, true)) :
    (get_streak_data history today).1 = trailingTrueRun history := by
  cases history with
  | nil => simp at h
  | cons x xs =>
    have hlast : (x :: xs).getLast (List.cons_ne_nil x xs) = (today, true) := by
      have hg := List.getLast?_eq_getLast (x :: xs) (List.cons_ne_nil x xs)
      rw [hg] at h
      exact Option.some.inj h
    simp only [get_streak_data, hlast]
    rw [if_pos (by omega)]
    exact streakScan_fst (x :: xs)

/-- C1 witness: the amended theorem applied to the gap history of the
counterexample (both sides evaluate to 3). -/
theorem c1_witness :
    (get_streak_data [(7, true), (9, true), (10, true)] 10).1
      = trailingTrueRun [(7, true), (9, true), (10, true)] :=
  c1_amended [(7, true), (9, true), (10, true)] 10 (by decide)

/-- C2: for in-range inputs the victory score computed at save equals the
claimed formula (flag bonuses plus capped pushups plus capped study points,
the sum capped at 100); the all-true boundary row scores exactly 100 and
the all-zero row scores 0. -/
theorem c2_saved_score (row : EditRow)
    (hp0 : 0 ≤ row.pushups) (hp1 : row.pushups ≤ 200)
    (hs0 : 0 ≤ row.study_hours) (hs1 : row.study_hours ≤ 24) :
    (processRow row).victory_score =
      min ((if row.coded_today then (30 : ℚ) else 0)
          + (if row.no_junk_food then (20 : ℚ) else 0)
          + (if row.workout_done then (10 : ℚ) else 0)
          + min row.pushups 30
          + min (row.study_hours * 5) 10) 100
    ∧ (processRow perfectRow).victory_score = 100
    ∧ (processRow zeroRow).victory_score = 0 := by
  refine ⟨?_, ?_, ?_⟩
  · show scoreOf row.coded_today row.no_junk_food row.workout_done
      (validate_numeric_input row.pushups 0 200)
      (validate_numeric_input row.study_hours 0 24) = _
    rw [validate_eq_self hp0 hp1, validate_eq_self hs0 hs1]
    simp only [scoreOf, coded_today_points, no_junk_food_points,
      workout_done_points, pushups_max, study_hours_max, mul_one]
  · norm_num [processRow, perfectRow, scoreOf, validate_numeric_input,
      coded_today_points, no_junk_food_points, workout_done_points,
      pushups_max, study_hours_max, min_def]
  · norm_num [processRow, zeroRow, scoreOf, validate_numeric_input,
      coded_today_points, no_junk_food_points, workout_done_points,
      pushups_max, study_hours_max, min_def]

/-- C2 witness: the theorem applied to the all-true boundary row. -/
theorem c2_witness :
    (processRow perfectRow).victory_score =
      min ((if perfectRow.coded_today then (30 : ℚ) else 0)
          + (if perfectRow.no_junk_food then (20 : ℚ) else 0)
          + (if perfectRow.workout_done then (10 : ℚ) else 0)
          + min perfectRow.pushups 30
          + min (perfectRow.study_hours * 5) 10) 100
    ∧ (processRow perfectRow).victory_score = 100
    ∧ (processRow zeroRow).victory_score = 0 :=
  c2_saved_score perfectRow (by norm_num [perfectRow])
    (by norm_num [perfectRow]) (by norm_num [perfectRow])
    (by norm_num [perfectRow])

/-- C3 counterexample: the clamped input studyHours = 1/2 (with everything
else zero or false) produces the score 5/2, which is not an integer — the
claim that the Score Calculator always outputs an integer fails. -/
theorem c3_counterexample :
    (0 : ℚ) ≤ 1/2 ∧ (1/2 : ℚ) ≤ 24
    ∧ scoreOf false false false 0 (1/2) = 5/2
    ∧ ¬ ∃ z : ℤ, scoreOf false false false 0 (1/2) = (z : ℚ) := by
  have hval : scoreOf false false false 0 (1/2) = 5/2 := by
    norm_num [scoreOf, coded_today_points, no_junk_food_points,
      workout_done_points, pushups_max, study_hours_max, min_def]
  refine ⟨by norm_num, by norm_num, hval, ?_⟩
  rintro ⟨z, hz⟩
  rw [hval] at hz
  have h5 : (5 : ℚ) = 2 * (z : ℚ) := by linarith
  have h5z : (5 : ℤ) = 2 * z := by exact_mod_cast h5
  omega

/-- C3 amended: the Score Calculator is monotone non-decreasing in each of
its five inputs holding the others fixed, and on clamped (non-negative)
inputs its output lies in [0, 100]; the output is a rational, not always an
integer (studyHours = 1/2 gives 5/2). -/
theorem c3_amended (c n w : Bool) (p p' s s' : ℚ)
    (hpp : p ≤ p') (hss : s ≤ s') (hp0 : 0 ≤ p) (hs0 : 0 ≤ s) :
    scoreOf false n w p s ≤ scoreOf true n w p s
    ∧ scoreOf c false w p s ≤ scoreOf c true w p s
    ∧ scoreOf c n false p s ≤ scoreOf c n true p s
    ∧ scoreOf c n w p s ≤ scoreOf c n w p' s
    ∧ scoreOf c n w p s ≤ scoreOf c n w p s'
    ∧ 0 ≤ scoreOf c n w p s
    ∧ scoreOf c n w p s ≤ 100 :=
  ⟨scoreOf_mono_coded n w p s, scoreOf_mono_junk c w p s,
   scoreOf_mono_workout c n p s, scoreOf_mono_p c n w s hpp,
   scoreOf_mono_s c n w p hss, scoreOf_nonneg c n w p s hp0 hs0,
   scoreOf_le_100 c n w p s⟩

/-- C3 witness: the amended theorem applied at p = 1 ≤ p' = 2,
s = 3 ≤ s' = 4 with all flags true. -/
theorem c3_witness :
    scoreOf false true true 1 3 ≤ scoreOf true true true 1 3
    ∧ scoreOf true false true 1 3 ≤ scoreOf true true true 1 3
    ∧ scoreOf true true false 1 3 ≤ scoreOf true true true 1 3
    ∧ scoreOf true true true 1 3 ≤ scoreOf true true true 2 3
    ∧ scoreOf true true true 1 3 ≤ scoreOf true true true 1 4
    ∧ 0 ≤ scoreOf true true true 1 3
    ∧ scoreOf true true true 1 3 ≤ 100 :=
  c3_amended true true true 1 2 3 4 (by norm_num) (by norm_num)
    (by norm_num) (by norm_num)

/-- C4 counterexample: a history ending in (today, false) after two
consecutive true days yields current streak 0, not the 2 the claim asserts
— the false entry dated today resets the scan like any other false flag. -/
theorem c4_counterexample :
    (get_streak_data [(8, true), (9, true), (10, false)] 10).1 = 0
      ∧ (get_streak_data [(8, true), (9, true), (10, false)] 10).1 ≠ 2 := by
  decide

/-- C4 amended: any history whose last entry has flag false yields current
streak 0: a false entry dated today is not exempted from breaking the
streak. -/
theorem c4_amended (history : List (ℤ × Bool)) (today d : ℤ)
    (h : history.getLast? = some (d, false)) :
    (get_streak_data history today).1 = 0 := by
  rcases current_eq_zero_or_trailing history today with h0 | ht
  · exact h0
  · rw [ht]
    obtain ⟨ys, rfl⟩ := List.getLast?_eq_some_iff.1 h
    simp [trailingTrueRun, List.reverse_append]

/-- C4 witness: the amended theorem applied to the counterexample history. -/
theorem c4_witness :
    (get_streak_data [(8, true), (9, true), (10, false)] 10).1 = 0 :=
  c4_amended [(8, true), (9, true), (10, false)] 10 10 (by decide)

/-- C5 counterexample: with reference date 10 (a Wednesday ordinal) and
offset 1, the anchor Sunday is 0 — seven days BEFORE the offset-0 anchor 7,
not seven days after as the claim (positive = future) requires. -/
theorem c5_counterexample :
    (get_current_week_dates 10 1).2 ≠ (get_current_week_dates 10 0).2 + 7 := by
  decide

/-- C5 amended: a positive offset shifts the week window into the past and
a negative one into the future (offset 0 is the current week): the anchor
Sunday for offset k lies 7*k days BEFORE the offset-0 anchor computed from
the same reference date. -/
theorem c5_amended (today offset_weeks : ℤ) :
    (get_current_week_dates today offset_weeks).2
      = (get_current_week_dates today 0).2 - 7 * offset_weeks := by
  simp only [get_current_week_dates, pyWeekday]
  omega

/-- C6: for every reference date and offset, the Week Window Calculator
returns the seven consecutive dates starting at the returned anchor; the
anchor is a Sunday (Python weekday 6), is at most the shifted reference
date and less than 7 days before it (the most recent Sunday on or before
it), equals the shifted date minus (weekdayMondayBased + 1) mod 7 days, and
anchors at adjacent offsets are exactly 7 days apart. -/
theorem c6_week_window (today k : ℤ) :
    (get_current_week_dates today k).1
      = [(get_current_week_dates today k).2,
         (get_current_week_dates today k).2 + 1,
         (get_current_week_dates today k).2 + 2,
         (get_current_week_dates today k).2 + 3,
         (get_current_week_dates today k).2 + 4,
         (get_current_week_dates today k).2 + 5,
         (get_current_week_dates today k).2 + 6]
    ∧ pyWeekday (get_current_week_dates today k).2 = 6
    ∧ (get_current_week_dates today k).2 ≤ today - 7 * k
    ∧ today - 7 * k - (get_current_week_dates today k).2 < 7
    ∧ (get_current_week_dates today k).2
        = (today - 7 * k) - ((pyWeekday (today - 7 * k) + 1) % 7)
    ∧ (get_current_week_dates today (k + 1)).2
        = (get_current_week_dates today k).2 - 7 := by
  refine ⟨?_, ?_, ?_, ?_, ?_, ?_⟩
  · simp only [get_current_week_dates]
    exact map_range_seven _
  · simp only [get_current_week_dates, pyWeekday]
    omega
  · simp only [get_current_week_dates, pyWeekday]
    omega
  · simp only [get_current_week_dates, pyWeekday]
    omega
  · simp only [get_current_week_dates, pyWeekday]
  · simp only [get_current_week_dates, pyWeekday]
    omega

/-- C7: evaluation at the failing input.  With a non-empty store that lacks
the target date, the normalizer emits the fully-defaulted row whose notes
cell is the NUMBER 0 (the blanket `fillna(0)`), not the empty string the
per-field default table prescribes; with an empty store the notes default
is the empty string. -/
theorem c7_notes_zero_fill :
    get_display_data ["2024-01-01"] [sampleStored] = [missingRow "2024-01-01"]
    ∧ (missingRow "2024-01-01").notes = NoteCell.ofNum 0
    ∧ NoteCell.ofNum 0 ≠ NoteCell.ofStr ""
    ∧ get_display_data ["2024-01-01"] [] = [defaultRow "2024-01-01"]
    ∧ (defaultRow "2024-01-01").notes = NoteCell.ofStr "" := by
  decide

/-- C8 counterexample: a stored row dated 2099-01-01 whose date appears in
the saved batch is NOT replaced (the future-date protection skips the batch
row), contradicting the claim that every stored row whose date appears in
the batch is replaced with the rescored batch values. -/
theorem c8_counterexample :
    (save_grid_changes futureDb [futureEdit] "2024-06-01").1 "2099-01-01"
        = some futureRowOld
    ∧ (save_grid_changes futureDb [futureEdit] "2024-06-01").1 "2099-01-01"
        ≠ some (processRow futureEdit)
    ∧ futureRowOld ≠ processRow futureEdit := by
  decide

/-- C8 amended: for every batch of distinct dates — future-dated rows
included — saving merges by date with the future rows skipped: every batch
row not dated after today ends up stored revalidated and rescored under its
date, every date strictly after today keeps its stored state unchanged
(this is what the skip clause means for a stored row whose date appears in
the batch), every date outside the batch is preserved unchanged, and
saving the same batch twice yields the same stored state as saving it
once. -/
theorem c8_merge (db : DbState) (batch : List EditRow) (today : String)
    (hnd : (batch.map EditRow.log_date).Nodup) :
    (∀ r ∈ batch, ¬ today < r.log_date →
        (save_grid_changes db batch today).1 r.log_date = some (processRow r))
    ∧ (∀ d, today < d → (save_grid_changes db batch today).1 d = db d)
    ∧ (∀ d, d ∉ batch.map EditRow.log_date →
        (save_grid_changes db batch today).1 d = db d)
    ∧ (save_grid_changes (save_grid_changes db batch today).1 batch today).1
        = (save_grid_changes db batch today).1 := by
  have hmem : ∀ (db' : DbState), ∀ r ∈ batch, ¬ today < r.log_date →
      (save_grid_changes db' batch today).1 r.log_date
        = some (processRow r) := by
    intro db' r hr hnl
    rw [save_fst]
    exact saveState_mem db' batch today r hr hnd
      ((strGt_eq_false_iff r.log_date today).2 hnl)
  have hfutpres : ∀ (db' : DbState) (d : String), today < d →
      (save_grid_changes db' batch today).1 d = db' d := by
    intro db' d hlt
    rw [save_fst]
    exact saveState_future db' batch today d ((strGt_iff_lt d today).2 hlt)
  have hout : ∀ (db' : DbState) (d : String), d ∉ batch.map EditRow.log_date →
      (save_grid_changes db' batch today).1 d = db' d := by
    intro db' d hd
    rw [save_fst]
    refine saveState_not_mem db' batch today d ?_
    intro r hr hcontra
    exact hd (hcontra ▸ List.mem_map_of_mem EditRow.log_date hr)
  refine ⟨hmem db, hfutpres db, hout db, ?_⟩
  funext d
  by_cases hgt : strGt d today = true
  · exact hfutpres _ d ((strGt_iff_lt d today).1 hgt)
  · have hf : strGt d today = false := by
      cases hsg : strGt d today
      · rfl
      · exact absurd hsg hgt
    have hnl : ¬ today < d := (strGt_eq_false_iff d today).1 hf
    by_cases hdm : d ∈ batch.map EditRow.log_date
    · obtain ⟨r, hr, rfl⟩ := List.mem_map.1 hdm
      rw [hmem _ r hr hnl, hmem db r hr hnl]
    · rw [hout _ d hdm, hout db d hdm]

/-- C8 witness: the amended theorem applied to a mixed batch (one
future-dated row, one past-dated row) over the table holding the stored
future row: the past date holds the processed row, the stored future row —
whose date appears in the batch — is left unchanged, an untouched outside
date stays unchanged, and re-saving the same mixed batch changes
nothing. -/
theorem c8_witness :
    ((save_grid_changes futureDb [futureEdit, pastEdit] "2024-06-05").1
          pastEdit.log_date
        = some (processRow pastEdit))
    ∧ ((save_grid_changes futureDb [futureEdit, pastEdit] "2024-06-05").1
          "2099-01-01"
        = futureDb "2099-01-01")
    ∧ ((save_grid_changes futureDb [futureEdit, pastEdit] "2024-06-05").1
          "2020-01-01"
        = futureDb "2020-01-01")
    ∧ (save_grid_changes
          (save_grid_changes futureDb [futureEdit, pastEdit] "2024-06-05").1
          [futureEdit, pastEdit] "2024-06-05").1
        = (save_grid_changes futureDb [futureEdit, pastEdit] "2024-06-05").1 :=
  have h := c8_merge futureDb [futureEdit, pastEdit] "2024-06-05" (by decide)
  ⟨h.1 pastEdit (by decide)
     ((strGt_eq_false_iff pastEdit.log_date "2024-06-05").1 (by decide)),
   h.2.1 "2099-01-01" ((strGt_iff_lt "2099-01-01" "2024-06-05").1 (by decide)),
   h.2.2.1 "2020-01-01" (by decide),
   h.2.2.2⟩

/-- C9: future-dated rows are skipped on save — a date strictly after today
is left exactly as it was stored — while batch rows dated today or earlier
(distinct dates, as in the week grid) are still saved, and the non-blocking
notice flag is set exactly when some batch row is future-dated. -/
theorem c9_future_rows_locked (db : DbState) (batch : List EditRow)
    (today d : String) (hnd : (batch.map EditRow.log_date).Nodup) :
    (today < d → (save_grid_changes db batch today).1 d = db d)
    ∧ (∀ r ∈ batch, ¬ today < r.log_date →
        (save_grid_changes db batch today).1 r.log_date = some (processRow r))
    ∧ ((save_grid_changes db batch today).2.1 = true
        ↔ ∃ r ∈ batch, today < r.log_date) := by
  refine ⟨?_, ?_, ?_⟩
  · intro hlt
    rw [save_fst]
    exact saveState_future db batch today d ((strGt_iff_lt d today).2 hlt)
  · intro r hr hnl
    rw [save_fst]
    exact saveState_mem db batch today r hr hnd
      ((strGt_eq_false_iff r.log_date today).2 hnl)
  · rw [save_flag]
    simp only [List.any_eq_true, strGt_iff_lt]

/-- C9 witness: the theorem applied to a batch holding one future-dated and
one past-dated row over the empty table. -/
theorem c9_witness :
    ((save_grid_changes emptyDb [futureEdit, pastEdit] "2024-06-05").1
          "2099-01-01"
        = emptyDb "2099-01-01")
    ∧ ((save_grid_changes emptyDb [futureEdit, pastEdit] "2024-06-05").1
          pastEdit.log_date
        = some (processRow pastEdit))
    ∧ ((save_grid_changes emptyDb [futureEdit, pastEdit] "2024-06-05").2.1 = true
        ↔ ∃ r ∈ [futureEdit, pastEdit], "2024-06-05" < r.log_date) :=
  have h := c9_future_rows_locked emptyDb [futureEdit, pastEdit] "2024-06-05"
    "2099-01-01" (by decide)
  ⟨h.1 ((strGt_iff_lt "2099-01-01" "2024-06-05").1 (by decide)),
   h.2.1 pastEdit (by decide)
     ((strGt_eq_false_iff pastEdit.log_date "2024-06-05").1 (by decide)),
   h.2.2⟩

/-- C10: for every history (the empty one included) the streak pair
satisfies longest ≥ current: the credited current streak is either 0 or the
trailing run of true entries, and the longest value dominates both that
trailing run and the credited current value. -/
theorem c10_longest_dominates (history : List (ℤ × Bool)) (today : ℤ) :
    ((get_streak_data history today).1 = 0
        ∨ (get_streak_data history today).1 = trailingTrueRun history)
    ∧ trailingTrueRun history ≤ (get_streak_data history today).2
    ∧ (get_streak_data history today).1 ≤ (get_streak_data history today).2 := by
  refine ⟨current_eq_zero_or_trailing history today, ?_, ?_⟩
  · cases history with
    | nil => simp [get_streak_data, trailingTrueRun]
    | cons x xs =>
      have h1 := streakScan_le (x :: xs) 0 0 le_rfl
      have h2 := streakScan_fst (x :: xs)
      simp only [get_streak_data]
      rw [← h2]
      exact h1.1
  · cases history with
    | nil => simp [get_streak_data]
    | cons x xs =>
      have h1 := streakScan_le (x :: xs) 0 0 le_rfl
      simp only [get_streak_data]
      split
      · exact h1.1
      · exact Nat.zero_le _

end HabitTracker
